import Mathlib

/-!
Verification of the Echo learning-assistant browser extension core
(`src/ai.js`, `src/background.js`, `src/popup.js`).

The JavaScript is shallowly embedded: JS numbers are modelled as `ℚ`,
JS strings as `String`, parsed JSON values as the inductive `Json`,
JS objects as association lists with last-write-wins lookup (matching the
semantics of object spread `{...a, ...b}` as list append), and the external
AI call (`chrome.ai.createPrompt`) as an `Option String` oracle argument.
`JSON.parse` is modelled by an executable recursive-descent parser over the
JSON grammar.  All definitions are structurally (or fuel-) recursive so that
closed instances evaluate by `rfl`/`decide`.
-/

/-- Brace characters, via code points (123 = left brace, 125 = right brace). -/
def lbrace : Char := Char.ofNat 123

def rbrace : Char := Char.ofNat 125

/-- Whitespace as used by the JS `\s`-based splitting/trimming in the model
and by the JSON grammar: space, tab, line feed, carriage return. -/
def isWsChar (c : Char) : Bool :=
  c.toNat == 32 || c.toNat == 9 || c.toNat == 10 || c.toNat == 13

/-- ASCII lower-casing of a character, modelling `String.prototype.toLowerCase`
on the ASCII range (written as an explicit table so that its case analysis is
elementary). -/
def lowerChar (c : Char) : Char :=
  if c = 'A' then 'a' else if c = 'B' then 'b' else if c = 'C' then 'c'
  else if c = 'D' then 'd' else if c = 'E' then 'e' else if c = 'F' then 'f'
  else if c = 'G' then 'g' else if c = 'H' then 'h' else if c = 'I' then 'i'
  else if c = 'J' then 'j' else if c = 'K' then 'k' else if c = 'L' then 'l'
  else if c = 'M' then 'm' else if c = 'N' then 'n' else if c = 'O' then 'o'
  else if c = 'P' then 'p' else if c = 'Q' then 'q' else if c = 'R' then 'r'
  else if c = 'S' then 's' else if c = 'T' then 't' else if c = 'U' then 'u'
  else if c = 'V' then 'v' else if c = 'W' then 'w' else if c = 'X' then 'x'
  else if c = 'Y' then 'y' else if c = 'Z' then 'z' else c

/-- `toLowerCase` on a whole string. -/
def lowerStr (s : String) : String := ⟨s.data.map lowerChar⟩

/-- `String.prototype.trim` on a character list. -/
def trimCL (l : List Char) : List Char :=
  ((l.dropWhile isWsChar).reverse.dropWhile isWsChar).reverse

/-- Splitting on runs of whitespace, i.e. JS `s.split(/\s+/)`, including the
empty leading/trailing tokens that JS produces when the string starts or ends
with whitespace.  Fuel-recursive (the fuel is the length of the list, and each
step consumes at least one character, so the fuel branch is never reached). -/
def splitWsAux : Nat → List Char → List Char → List (List Char)
  | 0, _, acc => [acc.reverse]
  | Nat.succ f, cs, acc =>
    match cs with
    | [] => [acc.reverse]
    | c :: cs' =>
      if isWsChar c then acc.reverse :: splitWsAux f (cs'.dropWhile isWsChar) []
      else splitWsAux f cs' (c :: acc)

/-- JS `s.split(/\s+/)`. -/
def splitWs (s : String) : List String :=
  (splitWsAux s.data.length s.data []).map (fun l => ⟨l⟩)

/-- Index of the first occurrence of `pat` as a contiguous sub-list, i.e. the
position at which a search for the literal pattern first succeeds. -/
def findSub (pat : List Char) : List Char → Option Nat
  | [] => if pat.isEmpty then some 0 else none
  | c :: cs =>
    if pat.isPrefixOf (c :: cs) then some 0
    else (findSub pat cs).map (· + 1)

/-- JSON values as produced by `JSON.parse`: JS numbers are modelled as `ℚ`,
objects as association lists in key order (duplicate keys: the later entry
wins, as in JS). -/
inductive Json where
  | null : Json
  | bool : Bool → Json
  | num : ℚ → Json
  | str : String → Json
  | arr : List Json → Json
  | obj : List (String × Json) → Json

/-- One transcript segment, `{ text, startTime }` as produced by the content
script and consumed by `ai.js`. -/
structure TranscriptSegment where
  text : String
  startTime : ℚ
deriving DecidableEq

/-- JS property access `v[k]` on a parsed JSON value: `none` models
`undefined` (absent key, or access on a non-object). -/
def getField : Json → String → Option Json
  | Json.obj fields, k => ((fields.reverse).find? (fun p => p.1 == k)).map (·.2)
  | _, _ => none

/-- JS truthiness of a parsed JSON value (note: empty arrays and empty objects
are truthy in JS). -/
def truthy : Json → Bool
  | Json.null => false
  | Json.bool b => b
  | Json.num n => !(n == 0)
  | Json.str s => !(s == "")
  | Json.arr _ => true
  | Json.obj _ => true

/-- JS `typeof v === 'object'` for a parsed JSON value (true for objects,
arrays and `null`). -/
def typeofObject : Json → Bool
  | Json.obj _ => true
  | Json.arr _ => true
  | Json.null => true
  | _ => false

/-- JS truthiness of a possibly-`undefined` value. -/
def truthyOpt : Option Json → Bool
  | none => false
  | some v => truthy v

/-- `typeof v === 'string'` for a possibly-`undefined` value. -/
def isStrOpt : Option Json → Bool
  | some (Json.str _) => true
  | _ => false

/-- `Array.isArray(v)` for a possibly-`undefined` value. -/
def isArrOpt : Option Json → Bool
  | some (Json.arr _) => true
  | _ => false

/-! ### A model of `JSON.parse`

An executable recursive-descent parser for the JSON grammar (objects, arrays,
strings with escapes, numbers with fraction and exponent, literals), strict in
the same places `JSON.parse` is: no trailing garbage, no leading zeros, no raw
control characters inside strings.  Fuel-recursive so closed calls reduce. -/

def digitVal (c : Char) : Option Nat :=
  if 48 ≤ c.toNat ∧ c.toNat ≤ 57 then some (c.toNat - 48) else none

def hexVal (c : Char) : Option Nat :=
  if 48 ≤ c.toNat ∧ c.toNat ≤ 57 then some (c.toNat - 48)
  else if 97 ≤ c.toNat ∧ c.toNat ≤ 102 then some (c.toNat - 87)
  else if 65 ≤ c.toNat ∧ c.toNat ≤ 70 then some (c.toNat - 55)
  else none

def escChar (e : Char) : Option Char :=
  if e = '\"' then some '\"'
  else if e = '\\' then some '\\'
  else if e = '/' then some '/'
  else if e = 'b' then some (Char.ofNat 8)
  else if e = 'f' then some (Char.ofNat 12)
  else if e = 'n' then some (Char.ofNat 10)
  else if e = 'r' then some (Char.ofNat 13)
  else if e = 't' then some (Char.ofNat 9)
  else none

def skipWs (cs : List Char) : List Char := cs.dropWhile isWsChar

/-- Parse the body of a JSON string literal (after the opening quote),
returning the decoded characters and the remaining input. -/
def pStringAux : List Char → Option (List Char × List Char)
  | [] => none
  | c :: cs =>
    if c = '\"' then some ([], cs)
    else if c = '\\' then
      match cs with
      | [] => none
      | e :: cs2 =>
        if e = 'u' then
          match cs2 with
          | h1 :: h2 :: h3 :: h4 :: cs3 =>
            match hexVal h1, hexVal h2, hexVal h3, hexVal h4 with
            | some a, some b, some c4, some d =>
              match pStringAux cs3 with
              | some (out, r) =>
                some (Char.ofNat (((a * 16 + b) * 16 + c4) * 16 + d) :: out, r)
              | none => none
            | _, _, _, _ => none
          | _ => none
        else
          match escChar e with
          | some ch =>
            match pStringAux cs2 with
            | some (out, r) => some (ch :: out, r)
            | none => none
          | none => none
    else if c.toNat < 32 then none
    else
      match pStringAux cs with
      | some (out, r) => some (c :: out, r)
      | none => none

/-- Read a maximal run of digits: value, digit count, remaining input. -/
def pDigitsAux : List Char → Nat → Nat → Nat × Nat × List Char
  | [], acc, n => (acc, n, [])
  | c :: cs, acc, n =>
    match digitVal c with
    | some d => pDigitsAux cs (acc * 10 + d) (n + 1)
    | none => (acc, n, c :: cs)

/-- Parse a JSON number (the optional leading minus having been consumed). -/
def pNum (neg : Bool) (cs : List Char) : Option (Json × List Char) :=
  let ipart := pDigitsAux cs 0 0
  if ipart.2.1 = 0 then none
  else if 1 < ipart.2.1 ∧ cs.head? = some '0' then none
  else
    let fracRes : Option (ℚ × List Char) :=
      match ipart.2.2 with
      | '.' :: rf =>
        let fpart := pDigitsAux rf 0 0
        if fpart.2.1 = 0 then none
        else some ((fpart.1 : ℚ) / (10 : ℚ) ^ fpart.2.1, fpart.2.2)
      | r => some (0, r)
    match fracRes with
    | none => none
    | some (fv, r2) =>
      let expRes : Option (ℚ × List Char) :=
        match r2 with
        | e :: r3 =>
          if e = 'e' ∨ e = 'E' then
            match r3 with
            | s :: r4 =>
              if s = '+' then
                let epart := pDigitsAux r4 0 0
                if epart.2.1 = 0 then none else some ((10 : ℚ) ^ epart.1, epart.2.2)
              else if s = '-' then
                let epart := pDigitsAux r4 0 0
                if epart.2.1 = 0 then none else some (((10 : ℚ) ^ epart.1)⁻¹, epart.2.2)
              else
                let epart := pDigitsAux r3 0 0
                if epart.2.1 = 0 then none else some ((10 : ℚ) ^ epart.1, epart.2.2)
            | [] => none
          else some (1, r2)
        | [] => some (1, r2)
      match expRes with
      | none => none
      | some (em, r6) =>
        let mag : ℚ := ((ipart.1 : ℚ) + fv) * em
        some (Json.num (if neg then -mag else mag), r6)

/-- Parse the fields of a JSON object (given a value parser for strictly
smaller fuel). -/
def pFieldsGo (pv : List Char → Option (Json × List Char)) :
    Nat → List Char → List (String × Json) → Option (Json × List Char)
  | 0, _, _ => none
  | Nat.succ fuel, cs, acc =>
    match cs with
    | c :: rest =>
      if c = '\"' then
        match pStringAux rest with
        | some (kchars, r1) =>
          match skipWs r1 with
          | ':' :: r3 =>
            match pv (skipWs r3) with
            | some (v, r4) =>
              match skipWs r4 with
              | ',' :: r6 => pFieldsGo pv fuel (skipWs r6) (acc ++ [(⟨kchars⟩, v)])
              | e :: r6 =>
                if e = rbrace then some (Json.obj (acc ++ [(⟨kchars⟩, v)]), r6)
                else none
              | [] => none
            | none => none
          | _ => none
        | none => none
      else none
    | [] => none

/-- Parse the elements of a JSON array (given a value parser for strictly
smaller fuel). -/
def pElemsGo (pv : List Char → Option (Json × List Char)) :
    Nat → List Char → List Json → Option (Json × List Char)
  | 0, _, _ => none
  | Nat.succ fuel, cs, acc =>
    match pv cs with
    | some (v, r1) =>
      match skipWs r1 with
      | ',' :: r3 => pElemsGo pv fuel (skipWs r3) (acc ++ [v])
      | ']' :: r3 => some (Json.arr (acc ++ [v]), r3)
      | _ => none
    | none => none

/-- Parse one JSON value. -/
def pVal : Nat → List Char → Option (Json × List Char)
  | 0, _ => none
  | Nat.succ fuel, cs =>
    match cs with
    | [] => none
    | c :: rest =>
      if c = lbrace then
        match skipWs rest with
        | d :: rest1 =>
          if d = rbrace then some (Json.obj [], rest1)
          else pFieldsGo (pVal fuel) fuel (skipWs rest) []
        | [] => none
      else if c = '[' then
        match skipWs rest with
        | d :: rest1 =>
          if d = ']' then some (Json.arr [], rest1)
          else pElemsGo (pVal fuel) fuel (skipWs rest) []
        | [] => none
      else if c = '\"' then
        match pStringAux rest with
        | some (chars, r) => some (Json.str ⟨chars⟩, r)
        | none => none
      else if c = 't' then
        if ("rue".data).isPrefixOf rest then some (Json.bool true, rest.drop 3) else none
      else if c = 'f' then
        if ("alse".data).isPrefixOf rest then some (Json.bool false, rest.drop 4) else none
      else if c = 'n' then
        if ("ull".data).isPrefixOf rest then some (Json.null, rest.drop 3) else none
      else if c = '-' then pNum true rest
      else if (digitVal c).isSome then pNum false cs
      else none

/-- Model of `JSON.parse`: parse a complete JSON document (whitespace allowed
around it, nothing else); `none` models a thrown `SyntaxError`. -/
def jsonParse (cs : List Char) : Option Json :=
  match pVal (2 * cs.length + 8) (skipWs cs) with
  | some (v, rest) => if (skipWs rest).isEmpty then some v else none
  | none => none

example : (jsonParse ("123".data)).isSome = true := rfl
example : jsonParse ("true".data) = some (Json.bool true) := rfl
example : jsonParse ("not json".data) = none := rfl
example : jsonParse ("[true, null]".data) = some (Json.arr [Json.bool true, Json.null]) := rfl
example : jsonParse ("\"a b\"".data) = some (Json.str "a b") := rfl

/-! ### `src/ai.js` — response parsing

`parseAIResponse` matches, in order, the regexes
(1) three backticks + `json` tag with a lazy body up to closing three backticks,
(2) three backticks with a lazy body up to closing three backticks,
(3) greedy first-open-brace-to-last-close-brace;
the first regex that MATCHES selects the string that is then trimmed and
handed to `JSON.parse` (`jsonString = jsonMatch[1] || jsonMatch[0]`, where an
empty capture group falls back to the whole match). -/

/-- The fenced-block regex with opening tag `tag` and closing triple backtick:
returns `(capture group, whole match)`.  Because the body group is lazy and
flanked by greedy whitespace classes, the group is the text between the first
occurrence of the tag and the next closing fence, with surrounding whitespace
stripped. -/
def matchFenced (tag : List Char) (s : List Char) : Option (List Char × List Char) :=
  match findSub tag s with
  | none => none
  | some i =>
    let rest := (s.drop i).drop tag.length
    match findSub ("```".data) rest with
    | none => none
    | some j =>
      some (trimCL (rest.take j), (s.drop i).take (tag.length + j + 3))

/-- The greedy brace regex: from the first opening brace to the last closing
brace, provided the latter comes after the former (whole match, no group). -/
def matchBraces (s : List Char) : Option (List Char) :=
  match findSub [lbrace] s with
  | none => none
  | some i =>
    match findSub [rbrace] s.reverse with
    | none => none
    | some k =>
      let j := s.length - 1 - k
      if i < j then some ((s.drop i).take (j - i + 1)) else none

/-- The string that `parseAIResponse` hands to `JSON.parse`: the first
matching strategy wins (match `[1] || [0]` for the fenced strategies), and if
none matches the raw response is used. -/
def selectExtraction (s : List Char) : List Char :=
  match matchFenced ("```json".data) s with
  | some (g, w) => if g.isEmpty then w else g
  | none =>
    match matchFenced ("```".data) s with
    | some (g, w) => if g.isEmpty then w else g
    | none =>
      match matchBraces s with
      | some w => w
      | none => s

/-- `parseAIResponse(response)`: extract a JSON string per the strategies
above, trim it, and `JSON.parse` it; `Except.error` models the thrown
`Failed to parse AI response as JSON` error. -/
def parseAIResponse (response : String) : Except String Json :=
  match jsonParse (trimCL (selectExtraction response.data)) with
  | some v => Except.ok v
  | none => Except.error "Failed to parse AI response as JSON"

/-! ### `src/ai.js` — study-module validation (`validateStudyModule`) -/

/-- Validation of one quiz question, 0-based index `i`
(JS reports positions 1-based). -/
def validateQuestion (i : Nat) (q : Json) : Except String Unit :=
  if !(truthyOpt (getField q "question") && isStrOpt (getField q "question")) then
    Except.error ("Question " ++ toString (i + 1) ++ " must have a question string")
  else if !(match getField q "options" with
            | some (Json.arr l) => l.length == 4
            | _ => false) then
    Except.error ("Question " ++ toString (i + 1) ++ " must have exactly 4 options")
  else if !(match getField q "correctAnswer" with
            | some (Json.num n) => decide (0 ≤ n) && decide (n ≤ 3)
            | _ => false) then
    Except.error ("Question " ++ toString (i + 1) ++ " must have a valid correctAnswer (0-3)")
  else if !(truthyOpt (getField q "explanation") && isStrOpt (getField q "explanation")) then
    Except.error ("Question " ++ toString (i + 1) ++ " must have an explanation string")
  else Except.ok ()

/-- The `forEach` over `quiz.questions`. -/
def validateQuestions (i : Nat) : List Json → Except String Unit
  | [] => Except.ok ()
  | q :: qs =>
    match validateQuestion i q with
    | Except.ok _ => validateQuestions (i + 1) qs
    | Except.error e => Except.error e

/-- `validateStudyModule(studyModule)`.  Note: the questions array is only
required to BE an array (`[]` is truthy in JS and `forEach` over it is a
no-op), so an empty questions array passes validation. -/
def validateStudyModule (m : Json) : Except String Unit :=
  if !(truthy m && typeofObject m) then
    Except.error "Study module must be an object"
  else if !(truthyOpt (getField m "summary") && isStrOpt (getField m "summary")) then
    Except.error "Study module must have a summary string"
  else if !(isArrOpt (getField m "keyTerms")) then
    Except.error "Study module must have keyTerms array"
  else if !(truthyOpt (getField m "quiz") &&
            truthyOpt (match getField m "quiz" with
                       | some q => getField q "questions"
                       | none => none) &&
            isArrOpt (match getField m "quiz" with
                      | some q => getField q "questions"
                      | none => none)) then
    Except.error "Study module must have quiz with questions array"
  else
    match (match getField m "quiz" with
           | some q => getField q "questions"
           | none => none) with
    | some (Json.arr qs) => validateQuestions 0 qs
    | _ => Except.ok ()

/-! ### `src/ai.js` — fallback generation -/

/-- Alphabetic character, modelling the regex class `[a-zA-Z]`. -/
def isAlphaChar (c : Char) : Bool :=
  (decide (65 ≤ c.toNat) && decide (c.toNat ≤ 90)) ||
    (decide (97 ≤ c.toNat) && decide (c.toNat ≤ 122))

/-- The regex test `/^[a-zA-Z]+$/.test(w)`. -/
def isAlphaStr (w : String) : Bool := !w.data.isEmpty && w.data.all isAlphaChar

/-- The fixed stoplist in `isCommonWord`. -/
def commonWords : List String :=
  ["this", "that", "with", "have", "will", "from", "they", "know", "want", "been",
   "good", "much", "some", "time", "very", "when", "come", "here", "just", "like",
   "long", "make", "many", "over", "such", "take", "than", "them", "well", "were"]

/-- `isCommonWord(word)`: membership of the lower-cased word in the stoplist. -/
def isCommonWord (w : String) : Bool := commonWords.contains (lowerStr w)

/-- `array.join(' ')`. -/
def joinSpace (l : List String) : String := String.intercalate " " l

/-- The in-insertion-order frequency table update
`termFrequency[word] = (termFrequency[word] || 0) + 1` (JS object keys that
are not integer-like enumerate in insertion order). -/
def bumpCount : List (String × Nat) → String → List (String × Nat)
  | [], w => [(w, 1)]
  | (k, c) :: rest, w =>
    if k = w then (k, c + 1) :: rest else (k, c) :: bumpCount rest w

/-- Stable insertion into a list sorted by strictly descending count: the
inserted (earlier-encountered) entry goes before entries of equal count,
modelling the ES2019-stable `sort((a, b) => b.count - a.count)`. -/
def insertByCount (x : String × Nat) : List (String × Nat) → List (String × Nat)
  | [] => [x]
  | y :: ys => if x.2 < y.2 then y :: insertByCount x ys else x :: y :: ys

/-- Stable sort by descending count (processing elements in encounter order,
so ties keep first-encountered order). -/
def sortByCountDesc : List (String × Nat) → List (String × Nat)
  | [] => []
  | x :: xs => insertByCount x (sortByCountDesc xs)

/-- `extractKeyTermsFromTranscript(transcriptData)`: join the segment texts
with spaces, lower-case, split on whitespace, keep words longer than 4
characters that match `[a-zA-Z]+`, drop stoplist words, count frequencies,
and return the first 8 terms by descending frequency. -/
def extractKeyTermsFromTranscript (t : List TranscriptSegment) : List String :=
  let allText := lowerStr (joinSpace (t.map (·.text)))
  let words := ((splitWs allText).filter
      (fun w => decide (4 < w.length) && isAlphaStr w)).filter
      (fun w => !isCommonWord w)
  let freq := words.foldl bumpCount []
  ((sortByCountDesc freq).take 8).map (·.1)

/-- `s.substring(0, 200)`. -/
def take200 (s : String) : String := ⟨s.data.take 200⟩

/-- `generateBasicSummary(transcriptData)`. -/
def generateBasicSummary (t : List TranscriptSegment) : String :=
  if t.length = 0 then "No content available."
  else
    "This video covers " ++ toString t.length ++
      " segments of content. The beginning discusses " ++
      take200 (joinSpace ((t.take 3).map (·.text))) ++
      "... The conclusion covers " ++
      take200 (joinSpace ((t.drop (t.length - 2)).map (·.text))) ++ "..."

/-- `generateBasicQuiz(transcriptData, difficulty)` (the difficulty argument
is accepted and ignored, as in the source). -/
def generateBasicQuiz (t : List TranscriptSegment) (difficulty : String) : Json :=
  let base : List Json :=
    if 0 < t.length then
      [Json.obj
        [("question", Json.str "What is discussed at the beginning of this video?"),
         ("options", Json.arr
           [Json.str "Introduction to the main topic",
            Json.str "Conclusion and summary",
            Json.str "Technical details only",
            Json.str "Background music"]),
         ("correctAnswer", Json.num 0),
         ("explanation", Json.str
           "The beginning of the video typically introduces the main topic that will be covered.")],
       Json.obj
        [("question", Json.str "How many content segments does this video have?"),
         ("options", Json.arr
           [Json.str (toString t.length ++ " segments"),
            Json.str "Less than 5 segments",
            Json.str "More than 50 segments",
            Json.str "Unknown"]),
         ("correctAnswer", Json.num 0),
         ("explanation", Json.str
           ("This video contains " ++ toString t.length ++ " distinct content segments."))]]
    else []
  let qs :=
    if 5 < t.length then
      base ++
        [Json.obj
          [("question", Json.str "What type of content is this video?"),
           ("options", Json.arr
             [Json.str "Educational content",
              Json.str "Entertainment only",
              Json.str "Advertisement",
              Json.str "Music video"]),
           ("correctAnswer", Json.num 0),
           ("explanation", Json.str
             "This appears to be educational content based on the structured transcript segments.")]]
    else base
  Json.obj [("questions", Json.arr qs)]

/-- `generateFallbackStudyModule(transcriptData, difficulty)`. -/
def generateFallbackStudyModule (t : List TranscriptSegment) (difficulty : String) : Json :=
  Json.obj
    [("summary", Json.str (generateBasicSummary t)),
     ("keyTerms", Json.arr ((extractKeyTermsFromTranscript t).map Json.str)),
     ("quiz", generateBasicQuiz t difficulty)]

/-- `generateStudyModule(transcriptData, highlights, difficulty)`.

The external `chrome.ai.createPrompt` call is modelled by the oracle argument
`resp : Option String` (`none` models the call throwing or returning a falsy
value; the prompt construction does not influence the result and is omitted).
The entire body runs in a `try` whose `catch` returns the fallback module, so
every failure — including the arity/emptiness check at the top — falls through
to `generateFallbackStudyModule`; the function is total on list inputs. -/
def generateStudyModule (t : List TranscriptSegment) (highlights : List String)
    (difficulty : String) (resp : Option String) : Json :=
  if t.isEmpty then generateFallbackStudyModule t difficulty
  else
    match resp with
    | none => generateFallbackStudyModule t difficulty
    | some r =>
      if r = "" then generateFallbackStudyModule t difficulty
      else
        match parseAIResponse r with
        | Except.error _ => generateFallbackStudyModule t difficulty
        | Except.ok m =>
          match validateStudyModule m with
          | Except.error _ => generateFallbackStudyModule t difficulty
          | Except.ok _ => m

/-- Read accessor for the questions list of a study module. -/
def questionsOf (m : Json) : Option (List Json) :=
  match getField m "quiz" with
  | some q =>
    match getField q "questions" with
    | some (Json.arr l) => some l
    | _ => none
  | none => none

/-! ### `src/background.js` — the video library

Library records are JS objects, modelled as association lists
`JObj = List (String × Json)` where later entries win on lookup; with that
convention the object spread `{...a, ...b}` is exactly list append. -/

/-- A JS object (e.g. a library record). -/
abbrev JObj : Type := List (String × Json)

/-- Property lookup on a JS object: the LAST entry for a key wins (so that
spread-append has JS overwrite semantics); `none` models `undefined`. -/
def getKey (o : JObj) (k : String) : Option Json :=
  ((List.reverse o).find? (fun p => p.1 == k)).map (·.2)

/-- JS strict equality `===` on two possibly-`undefined` parsed values:
value equality on primitives, and — since distinct objects/arrays are
compared by reference — `false` on object or array operands. -/
def strictEq : Option Json → Option Json → Bool
  | none, none => true
  | some Json.null, some Json.null => true
  | some (Json.bool a), some (Json.bool b) => a == b
  | some (Json.num a), some (Json.num b) => a == b
  | some (Json.str a), some (Json.str b) => a == b
  | _, _ => false

/-- The default fields attached to a newly inserted library record; in the
source these are spread AFTER `...videoData`, so under last-wins lookup they
are appended after the incoming fields. -/
def insertDefaults (newId : String) : JObj :=
  [("id", Json.str newId),
   ("studyCount", Json.num 0),
   ("lastStudied", Json.null),
   ("difficulty", Json.str "medium"),
   ("tags", Json.arr []),
   ("notes", Json.str "")]

/-- `addVideoToLibrary(videoData)` acting on the stored library list:
`findIndex` on matching `videoId` — if found, the record at that index becomes
`{...existing, ...videoData}`; otherwise `{...videoData, ...defaults}` is
pushed at the end (`newId` stands for the generated `this.generateVideoId()`). -/
def addVideoToLibrary (videoData : JObj) (newId : String) : List JObj → List JObj
  | [] => [videoData ++ insertDefaults newId]
  | v :: rest =>
    if strictEq (getKey v "videoId") (getKey videoData "videoId") then
      (v ++ videoData) :: rest
    else v :: addVideoToLibrary videoData newId rest

/-- `library.find(v => v.videoId === videoId)` — the read path used by
`handleReviewAlarm` and the popup. -/
def findVideo (lib : List JObj) (videoId : String) : Option JObj :=
  lib.find? (fun v => strictEq (getKey v "videoId") (some (Json.str videoId)))

/-- `removeVideoFromLibrary(videoId)` on the stored list:
`library.filter(video => video.videoId !== videoId)`. -/
def removeVideoFromLibrary (videoId : String) (lib : List JObj) : List JObj :=
  lib.filter (fun v => !(strictEq (getKey v "videoId") (some (Json.str videoId))))

/-- `updateVideoInLibrary(videoId, updateData)` on the stored list: if a
record matches, it becomes `{...existing, ...updateData}`; otherwise the
library is left unchanged (a silent no-op, not an error). -/
def updateVideoInLibrary (videoId : String) (updateData : JObj) : List JObj → List JObj
  | [] => []
  | v :: rest =>
    if strictEq (getKey v "videoId") (some (Json.str videoId)) then
      (v ++ updateData) :: rest
    else v :: updateVideoInLibrary videoId updateData rest

/-! ### `src/background.js` — spaced repetition -/

/-- `calculateNextInterval(currentInterval)`, kept verbatim including the
unreachable second branch that compares the same value twice. -/
def calculateNextInterval (currentInterval : ℚ) : ℚ :=
  if currentInterval = 1 then 1
  else if currentInterval = 1 then 6
  else min (currentInterval * 2) 30

/-- One SRS record `{ nextReview, interval, easeFactor, repetitions }`. -/
structure SRSEntry where
  nextReview : ℚ
  interval : ℚ
  easeFactor : ℚ
  repetitions : ℚ

/-- The stored SRS map, modelled like objects: an association list where the
last entry for a key wins (assignment `srsData[id] = v` appends, `delete
srsData[id]` filters the key out). -/
abbrev SRSMap : Type := List (String × SRSEntry)

/-- `srsData[videoId]` (`none` models `undefined`). -/
def lookupSRS (srs : SRSMap) (videoId : String) : Option SRSEntry :=
  ((List.reverse srs).find? (fun p => p.1 == videoId)).map (·.2)

/-- JS `x || d` for a possibly-`undefined` number `x`: `d` when absent or
zero (zero is falsy), `x` otherwise. -/
def jsOrQ (x : Option ℚ) (d : ℚ) : ℚ :=
  match x with
  | none => d
  | some v => if v = 0 then d else v

/-- The SRS-data update inside `scheduleVideoReview(videoId, reviewDate)`
(the `chrome.alarms` re-arming is platform plumbing outside the data model):
overwrites the entry with `interval = calculateNextInterval(old?.interval || 1)`,
`easeFactor = old?.easeFactor || 2.5`, `repetitions = (old?.repetitions || 0) + 1`. -/
def scheduleVideoReview (videoId : String) (reviewDate : ℚ) (srs : SRSMap) : SRSMap :=
  let old := lookupSRS srs videoId
  List.append srs
    [(videoId,
      { nextReview := reviewDate
        interval := calculateNextInterval (jsOrQ (old.map (·.interval)) 1)
        easeFactor := jsOrQ (old.map (·.easeFactor)) (5 / 2)
        repetitions := jsOrQ (old.map (·.repetitions)) 0 + 1 })]

/-- The SRS-data part of `cancelVideoReview(videoId)`:
`delete srsData[videoId]` (the alarm clearing is platform plumbing). -/
def cancelVideoReview (videoId : String) (srs : SRSMap) : SRSMap :=
  srs.filter (fun p => !(p.1 == videoId))

/-- The combined persisted state owned by the background service. -/
structure EchoState where
  library : List JObj
  srs : SRSMap

/-- `removeVideoFromLibrary` including its `cancelVideoReview` side effect. -/
def removeVideo (videoId : String) (st : EchoState) : EchoState :=
  { library := removeVideoFromLibrary videoId st.library
    srs := cancelVideoReview videoId st.srs }

/-! ### `src/popup.js` — quiz session state and study-count update -/

/-- The popup's quiz-session fields. -/
structure QuizState where
  currentQuiz : Json
  currentQuestionIndex : Nat
  selectedAnswer : Option Nat
  quizScore : Nat

/-- `retakeQuiz()`: resets index and score to 0 and re-displays question 0
(`displayQuestion` also resets `selectedAnswer`); `currentQuiz` is untouched. -/
def retakeQuiz (s : QuizState) : QuizState :=
  { s with currentQuestionIndex := 0, quizScore := 0, selectedAnswer := none }

/-- `video.studyCount || 0` read as a number (library records store numeric
study counts; for a stored number `n`, `n || 0` is `n`). -/
def studyCountOf (v : JObj) : ℚ :=
  match getKey v "studyCount" with
  | some (Json.num n) => n
  | _ => 0

/-- `updateVideoStudyCount(videoId)` acting on the stored library (`now`
stands for `Date.now()`): find the video; if present, send `updateVideo` with
`studyCount: (video.studyCount || 0) + 1` and `lastStudied: now`; if absent,
do nothing. -/
def updateVideoStudyCount (videoId : String) (now : ℚ) (lib : List JObj) : List JObj :=
  match findVideo lib videoId with
  | none => lib
  | some video =>
    updateVideoInLibrary videoId
      [("studyCount", Json.num (studyCountOf video + 1)),
       ("lastStudied", Json.num now)] lib

/-! ### The reference description of the fallback key-term extraction
(from the specification's wording, for the refinement claim C7). -/

/-- Reference algorithm as the specification words it: lowercase the
concatenated segment text, split on whitespace, keep only purely alphabetic
tokens longer than 4 characters that are not in the fixed 30-word stoplist,
count frequencies, and return at most 8 tokens ordered by descending
frequency with ties broken by first-encountered order. -/
def keyTermsRef (t : List TranscriptSegment) : List String :=
  let tokens := splitWs (lowerStr (joinSpace (t.map (·.text))))
  let kept := tokens.filter
    (fun w => isAlphaStr w && decide (4 < w.length) && !(commonWords.contains w))
  ((sortByCountDesc (kept.foldl bumpCount [])).take 8).map (·.1)

/-! ### Concrete instances used by counterexamples and witnesses -/

/-- A one-segment transcript. -/
def seg0 : TranscriptSegment := { text := "hello world", startTime := 0 }

/-- An AI response that is valid JSON, passes `validateStudyModule`, and has
an empty questions array. -/
def respEmptyQ : String :=
  "\x7b\"summary\":\"s\",\"keyTerms\":[],\"quiz\":\x7b\"questions\":[]\x7d\x7d"

/-- An AI response whose `json`-tagged fenced block is not valid JSON while
its brace-delimited substring is. -/
def respCex : String :=
  "```json\nnot json\n```\n\x7b\"a\":1\x7d"

/-- Incoming upsert payload that already carries a `studyCount`. -/
def vdCex : JObj := [("videoId", Json.str "v1"), ("studyCount", Json.num 5)]

/-- A stored record for the merge-on-existing path. -/
def storedCex : JObj :=
  [("videoId", Json.str "v1"), ("title", Json.str "Old title"), ("notes", Json.str "keep me")]

/-- A library record with a different id. -/
def otherVideo : JObj := [("videoId", Json.str "other"), ("title", Json.str "Other")]

/-- The capture group of the json-tagged fenced block in `respCex`. -/
def gCex : List Char := "not json".data

/-- The whole json-tagged fenced match in `respCex`. -/
def wCex : List Char := "```json\nnot json\n```".data

/-- A concrete SRS entry. -/
def entryA : SRSEntry := { nextReview := 1, interval := 1, easeFactor := 1, repetitions := 1 }

/-- Another concrete SRS entry. -/
def entryB : SRSEntry := { nextReview := 2, interval := 2, easeFactor := 2, repetitions := 2 }

/-- A concrete background-service state holding two videos and two
scheduled reviews. -/
def st0 : EchoState :=
  { library := [storedCex, otherVideo], srs := [("v1", entryA), ("other", entryB)] }

/-! ### Helper lemmas -/

theorem getKey_append (a b : JObj) (k : String) :
    getKey (a ++ b) k = (getKey b k).or (getKey a k) := by
  unfold getKey
  rw [List.reverse_append, List.find?_append]
  cases h : List.find? (fun p => p.1 == k) b.reverse <;> simp [Option.or, h]

theorem getKey_cons (kv : String × Json) (o : JObj) (k : String) :
    getKey (kv :: o) k = (getKey o k).or (if kv.1 == k then some kv.2 else none) := by
  have : kv :: o = [kv] ++ o := rfl
  rw [this, getKey_append]
  unfold getKey
  cases h : kv.1 == k <;> simp [List.find?, h]

theorem strictEq_some_str {x : Option Json} {s : String} :
    strictEq x (some (Json.str s)) = true ↔ x = some (Json.str s) := by
  constructor
  · intro h
    match x with
    | none => simp [strictEq] at h
    | some Json.null => simp [strictEq] at h
    | some (Json.bool _) => simp [strictEq] at h
    | some (Json.num _) => simp [strictEq] at h
    | some (Json.arr _) => simp [strictEq] at h
    | some (Json.obj _) => simp [strictEq] at h
    | some (Json.str a) => simp [strictEq] at h; rw [h]
  · intro h
    rw [h]
    simp [strictEq]

theorem findVideo_remove_self (lib : List JObj) (vid : String) :
    findVideo (removeVideoFromLibrary vid lib) vid = none := by
  induction lib with
  | nil => rfl
  | cons v rest ih =>
    unfold removeVideoFromLibrary findVideo at ih ⊢
    rw [List.filter_cons]
    cases h : strictEq (getKey v "videoId") (some (Json.str vid)) <;>
      simp [h, List.find?_cons, ih]

theorem findVideo_remove_other (lib : List JObj) (vid other : String) (hne : other ≠ vid) :
    findVideo (removeVideoFromLibrary vid lib) other = findVideo lib other := by
  induction lib with
  | nil => rfl
  | cons v rest ih =>
    unfold removeVideoFromLibrary findVideo at ih ⊢
    rw [List.filter_cons]
    cases h : strictEq (getKey v "videoId") (some (Json.str vid))
    · cases hov : strictEq (getKey v "videoId") (some (Json.str other)) <;>
        simp [h, hov, List.find?_cons, ih]
    · have hv : getKey v "videoId" = some (Json.str vid) := strictEq_some_str.mp h
      have hother : strictEq (getKey v "videoId") (some (Json.str other)) = false := by
        rw [hv]
        simp only [strictEq]
        exact beq_eq_false_iff_ne.mpr (Ne.symm hne)
      simp [h, hother, List.find?_cons, ih]

theorem lookupSRS_cons (x : String × SRSEntry) (l : SRSMap) (vid : String) :
    lookupSRS (x :: l) vid = (lookupSRS l vid).or (if x.1 == vid then some x.2 else none) := by
  unfold lookupSRS
  have : x :: l = [x] ++ l := rfl
  rw [this, List.reverse_append, List.find?_append]
  cases h : List.find? (fun p => p.1 == vid) l.reverse <;>
    cases hx : x.1 == vid <;> simp [Option.or, List.find?, h, hx]

theorem lookupSRS_cancel_self (srs : SRSMap) (vid : String) :
    lookupSRS (cancelVideoReview vid srs) vid = none := by
  induction srs with
  | nil => rfl
  | cons x l ih =>
    unfold cancelVideoReview at ih ⊢
    rw [List.filter_cons]
    cases hx : x.1 == vid <;> simp [hx, lookupSRS_cons, ih, Option.or]

theorem lookupSRS_cancel_other (srs : SRSMap) (vid other : String) (hne : other ≠ vid) :
    lookupSRS (cancelVideoReview vid srs) other = lookupSRS srs other := by
  induction srs with
  | nil => rfl
  | cons x l ih =>
    unfold cancelVideoReview at ih ⊢
    rw [List.filter_cons]
    cases hx : x.1 == vid
    · simp [hx, lookupSRS_cons, ih]
    · have hv : x.1 = vid := eq_of_beq hx
      have hxo : (x.1 == other) = false := by
        rw [hv]
        exact beq_eq_false_iff_ne.mpr (Ne.symm hne)
      simp [hx, hxo, lookupSRS_cons, ih, Option.or_none]

theorem lookupSRS_append_single (l : SRSMap) (vid : String) (e : SRSEntry) :
    lookupSRS (List.append l [(vid, e)]) vid = some e := by
  unfold lookupSRS
  have : List.append l [(vid, e)] = l ++ [(vid, e)] := rfl
  rw [this, List.reverse_append, List.find?_append]
  simp [List.find?]

/-- One `scheduleVideoReview` keeps (or establishes) `interval = 1` for an
id whose entry is absent or already at interval 1: the stored interval read
back is `old?.interval || 1`, and `calculateNextInterval 1 = 1`. -/
theorem schedule_step_one (srs : SRSMap) (vid : String) (d : ℚ)
    (h : lookupSRS srs vid = none ∨ ∃ e, lookupSRS srs vid = some e ∧ e.interval = 1) :
    ∃ e', lookupSRS (scheduleVideoReview vid d srs) vid = some e' ∧ e'.interval = 1 := by
  unfold scheduleVideoReview
  refine ⟨_, lookupSRS_append_single _ _ _, ?_⟩
  rcases h with h | ⟨e, he, hi⟩
  · simp [h, jsOrQ, calculateNextInterval]
  · simp [he, hi, jsOrQ, calculateNextInterval]

/-- Folding further `scheduleVideoReview` calls preserves `interval = 1`. -/
theorem schedule_fold_one (dates : List ℚ) (srs : SRSMap) (vid : String)
    (h : ∃ e, lookupSRS srs vid = some e ∧ e.interval = 1) :
    ∃ e', lookupSRS (dates.foldl (fun m d => scheduleVideoReview vid d m) srs) vid = some e' ∧
      e'.interval = 1 := by
  induction dates generalizing srs with
  | nil => exact h
  | cons d ds ih =>
    rw [List.foldl_cons]
    exact ih _ (schedule_step_one srs vid d (Or.inr h))

/-- Claim C10: starting from a state with no schedule entry for an id, any
finite sequence of `scheduleVideoReview` calls for that id (with no other
mutation of the schedule data) leaves the stored `interval` equal to 1 after
every call: the stored interval defaults to 1 and `calculateNextInterval`
maps 1 to 1, so the doubling-and-cap branch is never reached on this path.
(Since the dates list is arbitrary, every intermediate state is itself the
result of such a fold, so the statement covers the state after each call.) -/
theorem scheduleReview_interval_one (dates : List ℚ) (srs : SRSMap) (vid : String)
    (h0 : lookupSRS srs vid = none) (hne : dates ≠ []) :
    (lookupSRS (dates.foldl (fun m d => scheduleVideoReview vid d m) srs) vid).map
      (·.interval) = some 1 := by
  cases dates with
  | nil => exact absurd rfl hne
  | cons d ds =>
    rw [List.foldl_cons]
    obtain ⟨e, he, hi⟩ := schedule_fold_one ds _ vid (schedule_step_one srs vid d (Or.inl h0))
    rw [he]
    simp [hi]

/-- Witness for C10 at a concrete run: one call on an empty schedule map. -/
theorem scheduleReview_interval_one_witness :
    (lookupSRS (([3] : List ℚ).foldl (fun m d => scheduleVideoReview "v" d m) ([] : SRSMap)) "v").map
      (·.interval) = some 1 :=
  scheduleReview_interval_one [3] [] "v" rfl (List.cons_ne_nil _ _)

/-- Claim C6: `remove(itemId)` deletes the library record and the schedule
entry for that id — afterwards lookup of that id misses in both the library
and the schedule map — while records and schedule entries of every other id
are unchanged. -/
theorem removeVideo_spec (st : EchoState) (vid other : String) (h : other ≠ vid) :
    findVideo (removeVideo vid st).library vid = none ∧
    lookupSRS (removeVideo vid st).srs vid = none ∧
    findVideo (removeVideo vid st).library other = findVideo st.library other ∧
    lookupSRS (removeVideo vid st).srs other = lookupSRS st.srs other :=
  ⟨findVideo_remove_self st.library vid,
   lookupSRS_cancel_self st.srs vid,
   findVideo_remove_other st.library vid other h,
   lookupSRS_cancel_other st.srs vid other h⟩

/-- Witness for C6 on a concrete two-video, two-entry state. -/
theorem removeVideo_witness :
    findVideo (removeVideo "v1" st0).library "v1" = none ∧
    lookupSRS (removeVideo "v1" st0).srs "v1" = none ∧
    findVideo (removeVideo "v1" st0).library "other" = findVideo st0.library "other" ∧
    lookupSRS (removeVideo "v1" st0).srs "other" = lookupSRS st0.srs "other" :=
  removeVideo_spec st0 "v1" "other" (by decide)

/-- Claim C1: `calculateNextInterval` returns 1 for a previous interval of 1
and `min(d * 2, 30)` for every other previous interval `d` (the second
branch of the source, comparing the same value to 1 again, is unreachable);
in particular it maps 1 to 1, 2 to 4, 20 to 30 and 16 to 30. -/
theorem calculateNextInterval_spec :
    (∀ d : ℚ, calculateNextInterval d = if d = 1 then 1 else min (d * 2) 30) ∧
    calculateNextInterval 1 = 1 ∧ calculateNextInterval 2 = 4 ∧
    calculateNextInterval 20 = 30 ∧ calculateNextInterval 16 = 30 := by
  refine ⟨fun d => ?_, ?_, ?_, ?_, ?_⟩
  · by_cases h : d = 1 <;> simp [calculateNextInterval, h]
  · norm_num [calculateNextInterval]
  · norm_num [calculateNextInterval, min_def]
  · norm_num [calculateNextInterval, min_def]
  · norm_num [calculateNextInterval, min_def]

/-- Claim C9: `retakeQuiz` resets the question index and the score to 0 and
leaves the underlying study module — in particular its question list, hence
every question's prompt, options, correct index, explanation and their
order — unchanged. -/
theorem retakeQuiz_spec (s : QuizState) :
    (retakeQuiz s).currentQuiz = s.currentQuiz ∧
    (retakeQuiz s).currentQuestionIndex = 0 ∧
    (retakeQuiz s).quizScore = 0 ∧
    questionsOf (retakeQuiz s).currentQuiz = questionsOf s.currentQuiz :=
  ⟨rfl, rfl, rfl, rfl⟩

/-- Claim C3 (code bug): for an empty transcript array the code does NOT
surface the `Invalid transcript data provided` error — the function's own
catch-all swallows it — and `generateStudyModule` resolves with the fallback
module built from the empty transcript.  This theorem evaluates the code at
the failing input. -/
theorem generateStudyModule_empty_fallback :
    generateStudyModule [] [] "medium" none =
      Json.obj [("summary", Json.str "No content available."),
                ("keyTerms", Json.arr []),
                ("quiz", Json.obj [("questions", Json.arr [])])] := rfl

/-- Lookup inside the freshly inserted record's default fields. -/
theorem getKey_insertDefaults (newId k : String) :
    getKey (insertDefaults newId) k =
      if k = "id" then some (Json.str newId)
      else if k = "studyCount" then some (Json.num 0)
      else if k = "lastStudied" then some Json.null
      else if k = "difficulty" then some (Json.str "medium")
      else if k = "tags" then some (Json.arr [])
      else if k = "notes" then some (Json.str "")
      else none := by
  by_cases h1 : k = "id"
  · subst h1; rfl
  by_cases h2 : k = "studyCount"
  · subst h2; rfl
  by_cases h3 : k = "lastStudied"
  · subst h3; rfl
  by_cases h4 : k = "difficulty"
  · subst h4; rfl
  by_cases h5 : k = "tags"
  · subst h5; rfl
  by_cases h6 : k = "notes"
  · subst h6; rfl
  simp only [if_neg h1, if_neg h2, if_neg h3, if_neg h4, if_neg h5, if_neg h6]
  simp only [getKey, insertDefaults]
  rw [Option.map_eq_none', List.find?_eq_none]
  intro p hp
  simp only [List.mem_reverse, List.mem_cons, List.not_mem_nil, or_false] at hp
  rcases hp with hp | hp | hp | hp | hp | hp <;>
    (subst hp; intro hk)
  · exact h1 (eq_of_beq hk).symm
  · exact h2 (eq_of_beq hk).symm
  · exact h3 (eq_of_beq hk).symm
  · exact h4 (eq_of_beq hk).symm
  · exact h5 (eq_of_beq hk).symm
  · exact h6 (eq_of_beq hk).symm

/-- Claim C4 (amended): `addVideoToLibrary` merge semantics.  When no stored
record matches the incoming `videoId`, the incoming item is appended merged
with the defaults — and because the defaults are spread AFTER the incoming
fields, the fields `id`, `studyCount`, `lastStudied`, `difficulty`, `tags`
and `notes` are set to their defaults UNCONDITIONALLY, overwriting any
incoming values for them, while every other key keeps its incoming value.
When a stored record matches, the stored record becomes the shallow merge in
which every key present in the incoming item overwrites the stored value and
absent keys are untouched. -/
theorem addVideoToLibrary_merge_spec (lib rest : List JObj) (videoData stored : JObj)
    (newId k : String) :
    ((∀ v ∈ lib, strictEq (getKey v "videoId") (getKey videoData "videoId") = false) →
      addVideoToLibrary videoData newId lib = lib ++ [videoData ++ insertDefaults newId]) ∧
    (getKey (videoData ++ insertDefaults newId) k =
      if k = "id" then some (Json.str newId)
      else if k = "studyCount" then some (Json.num 0)
      else if k = "lastStudied" then some Json.null
      else if k = "difficulty" then some (Json.str "medium")
      else if k = "tags" then some (Json.arr [])
      else if k = "notes" then some (Json.str "")
      else getKey videoData k) ∧
    (strictEq (getKey stored "videoId") (getKey videoData "videoId") = true →
      addVideoToLibrary videoData newId (stored :: rest) = (stored ++ videoData) :: rest) ∧
    (getKey (stored ++ videoData) k = (getKey videoData k).or (getKey stored k)) := by
  refine ⟨?_, ?_, ?_, getKey_append stored videoData k⟩
  · intro h
    induction lib with
    | nil => rfl
    | cons v rest' ih =>
      have hv := h v (List.mem_cons_self v rest')
      unfold addVideoToLibrary
      rw [hv]
      simp only [Bool.false_eq_true, if_neg (by simp : ¬ (false = true)), List.cons_append]
      exact congrArg (v :: ·) (ih (fun w hw => h w (List.mem_cons_of_mem v hw)))
  · rw [getKey_append, getKey_insertDefaults]
    by_cases h1 : k = "id"
    · simp [h1, Option.or]
    by_cases h2 : k = "studyCount"
    · simp [h1, h2, Option.or]
    by_cases h3 : k = "lastStudied"
    · simp [h1, h2, h3, Option.or]
    by_cases h4 : k = "difficulty"
    · simp [h1, h2, h3, h4, Option.or]
    by_cases h5 : k = "tags"
    · simp [h1, h2, h3, h4, h5, Option.or]
    by_cases h6 : k = "notes"
    · simp [h1, h2, h3, h4, h5, h6, Option.or]
    simp [h1, h2, h3, h4, h5, h6, Option.or]
  · intro h
    unfold addVideoToLibrary
    rw [h]
    rfl

/-- Claim C4 counterexample: upserting a new item that carries
`studyCount: 5` stores `studyCount: 0` — the defaults overwrite incoming
fields on insert, contradicting the claim that fields present in the
incoming item keep their incoming values. -/
theorem addVideoToLibrary_defaults_override_cex :
    addVideoToLibrary vdCex "gen1" [] = [vdCex ++ insertDefaults "gen1"] ∧
    getKey vdCex "studyCount" = some (Json.num 5) ∧
    getKey (vdCex ++ insertDefaults "gen1") "studyCount" = some (Json.num 0) ∧
    getKey (vdCex ++ insertDefaults "gen1") "studyCount" ≠ some (Json.num 5) := by
  refine ⟨rfl, rfl, rfl, fun h => ?_⟩
  have h2 : some (Json.num (0 : ℚ)) = some (Json.num 5) := h
  injection h2 with h3
  injection h3 with h4
  exact absurd h4 (by norm_num)

/-- Witness for C4 at concrete inputs: an insert into a library with one
non-matching record, and a merge onto a matching stored record. -/
theorem addVideoToLibrary_merge_witness :
    addVideoToLibrary vdCex "gen2" [otherVideo] = [otherVideo] ++ [vdCex ++ insertDefaults "gen2"] ∧
    addVideoToLibrary vdCex "gen2" (storedCex :: []) = (storedCex ++ vdCex) :: [] ∧
    getKey (storedCex ++ vdCex) "title" = (getKey vdCex "title").or (getKey storedCex "title") :=
  ⟨(addVideoToLibrary_merge_spec [otherVideo] [] vdCex storedCex "gen2" "title").1
      (by intro v hv; simp at hv; subst hv; decide),
   (addVideoToLibrary_merge_spec [otherVideo] [] vdCex storedCex "gen2" "title").2.2.1 (by decide),
   (addVideoToLibrary_merge_spec [otherVideo] [] vdCex storedCex "gen2" "title").2.2.2⟩

/-- Updating the first matching record keeps it findable and merged. -/
theorem findVideo_update (lib : List JObj) (vid : String) (d : JObj) (video : JObj)
    (hd : getKey d "videoId" = none)
    (h : findVideo lib vid = some video) :
    findVideo (updateVideoInLibrary vid d lib) vid = some (video ++ d) := by
  induction lib with
  | nil => simp [findVideo] at h
  | cons v rest ih =>
    unfold findVideo at h ih ⊢
    unfold updateVideoInLibrary
    by_cases hp : strictEq (getKey v "videoId") (some (Json.str vid)) = true
    · rw [if_pos hp]
      rw [List.find?_cons] at h
      simp only [hp] at h
      have hv : v = video := Option.some.inj h
      subst hv
      have hm : strictEq (getKey (v ++ d) "videoId") (some (Json.str vid)) = true := by
        rw [getKey_append, hd, Option.none_or]
        exact hp
      rw [List.find?_cons]
      simp only [hm]
    · have hb : strictEq (getKey v "videoId") (some (Json.str vid)) = false :=
        Bool.eq_false_iff.mpr hp
      rw [if_neg hp]
      rw [List.find?_cons] at h
      simp only [hb] at h
      rw [List.find?_cons]
      simp only [hb]
      exact ih h

/-- Claim C5 (amended): recording a study session for an `itemId` that
exists increments its `studyCount` by exactly 1 and sets `lastStudied` to
the current time; for an `itemId` with no record the operation completes
successfully as a no-op, leaving the library unchanged (it does NOT fail
with a `NotFound` error). -/
theorem updateVideoStudyCount_spec (lib : List JObj) (videoId : String) (now : ℚ) :
    (findVideo lib videoId = none → updateVideoStudyCount videoId now lib = lib) ∧
    (∀ video, findVideo lib videoId = some video →
      findVideo (updateVideoStudyCount videoId now lib) videoId =
        some (video ++ [("studyCount", Json.num (studyCountOf video + 1)),
                        ("lastStudied", Json.num now)]) ∧
      getKey (video ++ [("studyCount", Json.num (studyCountOf video + 1)),
                        ("lastStudied", Json.num now)]) "studyCount" =
        some (Json.num (studyCountOf video + 1)) ∧
      getKey (video ++ [("studyCount", Json.num (studyCountOf video + 1)),
                        ("lastStudied", Json.num now)]) "lastStudied" =
        some (Json.num now)) := by
  constructor
  · intro h
    unfold updateVideoStudyCount
    rw [h]
  · intro video h
    refine ⟨?_, ?_, ?_⟩
    · unfold updateVideoStudyCount
      rw [h]
      exact findVideo_update lib videoId _ video rfl h
    · rw [getKey_append]; rfl
    · rw [getKey_append]; rfl

/-- Claim C5 counterexample: recording a study session for an id with no
library record completes successfully with the library unchanged, where the
claim requires a `NotFound` failure (the embedded operation is total — the
source's `updateVideoInLibrary` silently skips the update and the message
handler answers `success: true`). -/
theorem updateVideoStudyCount_missing_noop_cex :
    updateVideoStudyCount "missing" 100 [otherVideo] = [otherVideo] := rfl

/-- Witness for C5 at concrete inputs: a miss leaves the one-record library
unchanged, and a hit on the stored record merges the incremented count. -/
theorem updateVideoStudyCount_witness :
    updateVideoStudyCount "zzz" 7 [storedCex] = [storedCex] ∧
    (findVideo (updateVideoStudyCount "v1" 100 [storedCex]) "v1" =
      some (storedCex ++ [("studyCount", Json.num (studyCountOf storedCex + 1)),
                          ("lastStudied", Json.num 100)]) ∧
    getKey (storedCex ++ [("studyCount", Json.num (studyCountOf storedCex + 1)),
                          ("lastStudied", Json.num 100)]) "studyCount" =
      some (Json.num (studyCountOf storedCex + 1)) ∧
    getKey (storedCex ++ [("studyCount", Json.num (studyCountOf storedCex + 1)),
                          ("lastStudied", Json.num 100)]) "lastStudied" =
      some (Json.num 100)) :=
  ⟨(updateVideoStudyCount_spec [storedCex] "zzz" 7).1 rfl,
   (updateVideoStudyCount_spec [storedCex] "v1" 100).2 storedCex rfl⟩

/-- Claim C8 (amended): the extraction strategies are tried in order, but the
first strategy whose regex MATCHES wins regardless of whether its extracted
text parses: when the json-tagged fenced strategy matches with capture group
`g` and whole match `w`, the result is determined solely by parsing the
trimmed `g` (or `w` when the group is empty, per `jsonMatch[1] || jsonMatch[0]`);
in particular, if that text is not valid JSON the function throws even when
the brace-delimited strategy would extract valid JSON.  It throws exactly
when the selected extraction fails to parse. -/
theorem parseAIResponse_spec (r : String) (g w : List Char)
    (h1 : matchFenced ("```json".data) r.data = some (g, w)) :
    parseAIResponse r =
      (match jsonParse (trimCL (if g.isEmpty then w else g)) with
       | some v => Except.ok v
       | none => Except.error "Failed to parse AI response as JSON") ∧
    (jsonParse (trimCL (if g.isEmpty then w else g)) = none →
      ∀ b, matchBraces r.data = some b → (jsonParse (trimCL b)).isSome = true →
        parseAIResponse r = Except.error "Failed to parse AI response as JSON") := by
  constructor
  · unfold parseAIResponse selectExtraction
    rw [h1]
  · intro hn b hb hs
    unfold parseAIResponse selectExtraction
    rw [h1, hn]

/-- Witness for C8 at the concrete response `respCex`, whose json-tagged
fenced block matches with group `gCex` and whole match `wCex`. -/
theorem parseAIResponse_spec_witness :
    (parseAIResponse respCex =
      (match jsonParse (trimCL (if gCex.isEmpty then wCex else gCex)) with
       | some v => Except.ok v
       | none => Except.error "Failed to parse AI response as JSON")) ∧
    (jsonParse (trimCL (if gCex.isEmpty then wCex else gCex)) = none →
      ∀ b, matchBraces respCex.data = some b → (jsonParse (trimCL b)).isSome = true →
        parseAIResponse respCex = Except.error "Failed to parse AI response as JSON") :=
  parseAIResponse_spec respCex gCex wCex (by decide)

/-- Claim C8 counterexample: in `respCex` the json-tagged fenced block
matches but its content `not json` fails to parse, so `parseAIResponse`
throws — even though the brace-delimited strategy extracts valid JSON —
so a strategy that matches but fails to parse DOES prevent trying later
strategies, contrary to the claim. -/
theorem parseAIResponse_firstMatch_cex :
    parseAIResponse respCex = Except.error "Failed to parse AI response as JSON" ∧
    matchBraces respCex.data = some ("\x7b\"a\":1\x7d".data) ∧
    (jsonParse (trimCL ("\x7b\"a\":1\x7d".data))).isSome = true :=
  ⟨rfl, by decide, rfl⟩

theorem data_append_ne_nil (a b : String) (ha : a.data ≠ []) : (a ++ b).data ≠ [] := by
  rw [String.data_append]
  intro h
  exact ha (List.append_eq_nil.mp h).1

theorem append_ne_empty_left (a b : String) (ha : a.data ≠ []) : a ++ b ≠ "" := by
  intro h
  have hd := congrArg String.data h
  rw [String.data_append] at hd
  exact ha (List.append_eq_nil.mp hd).1

theorem generateBasicSummary_ne_empty (t : List TranscriptSegment) :
    generateBasicSummary t ≠ "" := by
  unfold generateBasicSummary
  by_cases h : t.length = 0
  · rw [if_pos h]
    decide
  · rw [if_neg h]
    apply append_ne_empty_left
    apply data_append_ne_nil
    apply data_append_ne_nil
    apply data_append_ne_nil
    apply data_append_ne_nil
    apply data_append_ne_nil
    decide

theorem segExplanation_ne_empty (n : Nat) :
    ("This video contains " ++ toString n ++ " distinct content segments.") ≠ "" := by
  apply append_ne_empty_left
  apply data_append_ne_nil
  decide

/-- The fallback module passes the implementation's validation for every
non-empty transcript (for both the 2-question and the 3-question shape). -/
theorem validateFallback (t : List TranscriptSegment) (d : String) (h : t ≠ []) :
    validateStudyModule (generateFallbackStudyModule t d) = Except.ok () := by
  have hlen : 0 < t.length := List.length_pos.mpr h
  have hS : (generateBasicSummary t == "") = false :=
    beq_eq_false_iff_ne.mpr (generateBasicSummary_ne_empty t)
  have hE : (("This video contains " ++ toString t.length ++ " distinct content segments.") == "")
      = false := beq_eq_false_iff_ne.mpr (segExplanation_ne_empty t.length)
  have c1 : (decide ((0 : ℚ) ≤ 0)) = true := by decide
  have c2 : (decide ((0 : ℚ) ≤ 3)) = true := by decide
  by_cases h5 : 5 < t.length <;>
    simp [generateFallbackStudyModule, validateStudyModule, generateBasicQuiz, getField,
          validateQuestions, validateQuestion, truthy, truthyOpt, isStrOpt, isArrOpt,
          typeofObject, hS, hE, hlen, h5, c1, c2, List.find?]

/-- Claim C2 (amended): for every non-empty transcript `generateStudyModule`
resolves (the embedded function is total) and its result always passes the
implementation's `validateStudyModule` — non-empty summary string, keyTerms
array, questions ARRAY with every question having exactly 4 options, a
numeric `correctAnswer` in [0, 3] and a non-empty explanation — but the
questions array itself may be EMPTY when the AI supplies an empty one (the
code only checks `Array.isArray`); the fallback path always produces a
non-empty questions array. -/
theorem generateStudyModule_resolves_and_validates (t : List TranscriptSegment)
    (hl : List String) (difficulty : String) (resp : Option String) (h : t ≠ []) :
    validateStudyModule (generateStudyModule t hl difficulty resp) = Except.ok () ∧
    questionsOf (generateFallbackStudyModule t difficulty) ≠ some [] := by
  constructor
  · have hne : t.isEmpty = false := by
      cases t with
      | nil => exact absurd rfl h
      | cons a l => rfl
    unfold generateStudyModule
    rw [hne]
    simp only [Bool.false_eq_true, if_false]
    cases resp with
    | none => exact validateFallback t difficulty h
    | some r =>
      dsimp only
      by_cases hr : r = ""
      · rw [if_pos hr]
        exact validateFallback t difficulty h
      · rw [if_neg hr]
        cases hpr : parseAIResponse r with
        | error e =>
          simp only [hpr]
          exact validateFallback t difficulty h
        | ok m =>
          simp only [hpr]
          cases hv : validateStudyModule m with
          | error e =>
            simp only [hv]
            exact validateFallback t difficulty h
          | ok u =>
            simp only [hv]
  · have hlen : 0 < t.length := List.length_pos.mpr h
    unfold generateFallbackStudyModule questionsOf generateBasicQuiz
    by_cases h5 : 5 < t.length <;>
      simp [getField, hlen, h5, List.find?]

/-- Witness for C2 at a concrete non-empty transcript with the AI call
failing (fallback path). -/
theorem generateStudyModule_resolves_witness :
    validateStudyModule (generateStudyModule [seg0] [] "medium" none) = Except.ok () ∧
    questionsOf (generateFallbackStudyModule [seg0] "medium") ≠ some [] :=
  generateStudyModule_resolves_and_validates [seg0] [] "medium" none (List.cons_ne_nil _ _)

/-- Claim C2 counterexample: with the one-segment transcript `[seg0]` and an
AI response that is valid JSON with an EMPTY questions array, the returned
module's questions array is empty — `validateStudyModule` accepts it because
`[]` is truthy in JS and `forEach` over it is a no-op — so the returned
module does not always satisfy the claimed "non-empty questions array". -/
theorem generateStudyModule_emptyQuestions_cex :
    questionsOf (generateStudyModule [seg0] [] "medium" (some respEmptyQ)) = some [] := rfl

theorem lowerChar_eq_self (c : Char) (h1 : c ≠ 'A') (h2 : c ≠ 'B') (h3 : c ≠ 'C') (h4 : c ≠ 'D') (h5 : c ≠ 'E') (h6 : c ≠ 'F') (h7 : c ≠ 'G') (h8 : c ≠ 'H') (h9 : c ≠ 'I') (h10 : c ≠ 'J') (h11 : c ≠ 'K') (h12 : c ≠ 'L') (h13 : c ≠ 'M') (h14 : c ≠ 'N') (h15 : c ≠ 'O') (h16 : c ≠ 'P') (h17 : c ≠ 'Q') (h18 : c ≠ 'R') (h19 : c ≠ 'S') (h20 : c ≠ 'T') (h21 : c ≠ 'U') (h22 : c ≠ 'V') (h23 : c ≠ 'W') (h24 : c ≠ 'X') (h25 : c ≠ 'Y') (h26 : c ≠ 'Z') :
    lowerChar c = c := by
  unfold lowerChar
  rw [if_neg h1, if_neg h2, if_neg h3, if_neg h4, if_neg h5, if_neg h6, if_neg h7, if_neg h8, if_neg h9, if_neg h10, if_neg h11, if_neg h12, if_neg h13, if_neg h14, if_neg h15, if_neg h16, if_neg h17, if_neg h18, if_neg h19, if_neg h20, if_neg h21, if_neg h22, if_neg h23, if_neg h24, if_neg h25, if_neg h26]

theorem lowerChar_idem (c : Char) : lowerChar (lowerChar c) = lowerChar c := by
  by_cases h1 : c = 'A'
  · subst h1; decide
  by_cases h2 : c = 'B'
  · subst h2; decide
  by_cases h3 : c = 'C'
  · subst h3; decide
  by_cases h4 : c = 'D'
  · subst h4; decide
  by_cases h5 : c = 'E'
  · subst h5; decide
  by_cases h6 : c = 'F'
  · subst h6; decide
  by_cases h7 : c = 'G'
  · subst h7; decide
  by_cases h8 : c = 'H'
  · subst h8; decide
  by_cases h9 : c = 'I'
  · subst h9; decide
  by_cases h10 : c = 'J'
  · subst h10; decide
  by_cases h11 : c = 'K'
  · subst h11; decide
  by_cases h12 : c = 'L'
  · subst h12; decide
  by_cases h13 : c = 'M'
  · subst h13; decide
  by_cases h14 : c = 'N'
  · subst h14; decide
  by_cases h15 : c = 'O'
  · subst h15; decide
  by_cases h16 : c = 'P'
  · subst h16; decide
  by_cases h17 : c = 'Q'
  · subst h17; decide
  by_cases h18 : c = 'R'
  · subst h18; decide
  by_cases h19 : c = 'S'
  · subst h19; decide
  by_cases h20 : c = 'T'
  · subst h20; decide
  by_cases h21 : c = 'U'
  · subst h21; decide
  by_cases h22 : c = 'V'
  · subst h22; decide
  by_cases h23 : c = 'W'
  · subst h23; decide
  by_cases h24 : c = 'X'
  · subst h24; decide
  by_cases h25 : c = 'Y'
  · subst h25; decide
  by_cases h26 : c = 'Z'
  · subst h26; decide
  rw [lowerChar_eq_self c h1 h2 h3 h4 h5 h6 h7 h8 h9 h10 h11 h12 h13 h14 h15 h16 h17 h18 h19 h20 h21 h22 h23 h24 h25 h26]
  exact lowerChar_eq_self c h1 h2 h3 h4 h5 h6 h7 h8 h9 h10 h11 h12 h13 h14 h15 h16 h17 h18 h19 h20 h21 h22 h23 h24 h25 h26

theorem splitWsAux_all (P : Char → Prop) (f : Nat) :
    ∀ (cs acc : List Char), (∀ c ∈ cs, P c) → (∀ c ∈ acc, P c) →
    ∀ w ∈ splitWsAux f cs acc, ∀ c ∈ w, P c := by
  induction f with
  | zero =>
    intro cs acc hcs hacc w hw c hc
    simp only [splitWsAux, List.mem_singleton] at hw
    subst hw
    exact hacc c (List.mem_reverse.mp hc)
  | succ f ih =>
    intro cs acc hcs hacc w hw c hc
    cases cs with
    | nil =>
      simp only [splitWsAux, List.mem_singleton] at hw
      subst hw
      exact hacc c (List.mem_reverse.mp hc)
    | cons x xs =>
      have hw2 : w ∈ (if isWsChar x then
          acc.reverse :: splitWsAux f (List.dropWhile isWsChar xs) []
        else splitWsAux f xs (x :: acc)) := hw
      clear hw
      by_cases hx : isWsChar x = true
      · rw [if_pos hx] at hw2
        rcases List.mem_cons.mp hw2 with hw2 | hw2
        · subst hw2
          exact hacc c (List.mem_reverse.mp hc)
        · exact ih (xs.dropWhile isWsChar) []
            (fun d hd => hcs d (List.mem_cons_of_mem x ((List.dropWhile_sublist _).subset hd)))
            (by simp) w hw2 c hc
      · rw [if_neg hx] at hw2
        refine ih xs (x :: acc) (fun d hd => hcs d (List.mem_cons_of_mem x hd)) ?_ w hw2 c hc
        intro d hd
        rcases List.mem_cons.mp hd with hd | hd
        · subst hd
          exact hcs _ (List.mem_cons_self _ _)
        · exact hacc d hd

theorem token_lowered (s : String) (w : String) (hw : w ∈ splitWs (lowerStr s)) :
    lowerStr w = w := by
  have hall : ∀ c ∈ w.data, lowerChar c = c := by
    unfold splitWs at hw
    obtain ⟨l, hl, rfl⟩ := List.mem_map.mp hw
    intro c hc
    refine splitWsAux_all (fun c => lowerChar c = c) _ _ _ ?_ (by simp) l hl c hc
    intro d hd
    simp only [lowerStr] at hd
    obtain ⟨e, he, rfl⟩ := List.mem_map.mp hd
    exact lowerChar_idem e
  unfold lowerStr
  cases w with
  | mk d =>
    have hmap : d.map lowerChar = d := by
      rw [List.map_congr_left hall]
      exact List.map_id d
    simp only [hmap]

/-- Claim C7: the fallback key-term extraction equals the reference
algorithm described by the specification — lowercase the concatenated
segment text, split on whitespace, keep only purely alphabetic tokens longer
than 4 characters that are not in the fixed 30-word stoplist, count
frequencies, return at most 8 tokens ordered by descending frequency with
ties broken by first-encountered order — and, being a pure function, running
it twice on identical input yields identical output in identical order. -/
theorem extractKeyTerms_spec (t : List TranscriptSegment) :
    extractKeyTermsFromTranscript t = keyTermsRef t ∧
    (extractKeyTermsFromTranscript t).length ≤ 8 ∧
    extractKeyTermsFromTranscript t = extractKeyTermsFromTranscript t := by
  refine ⟨?_, ?_, rfl⟩
  · simp only [extractKeyTermsFromTranscript, keyTermsRef]
    rw [List.filter_filter]
    have hfilters :
        List.filter (fun w => !isCommonWord w && (decide (4 < w.length) && isAlphaStr w))
          (splitWs (lowerStr (joinSpace (t.map (·.text))))) =
        List.filter (fun w => isAlphaStr w && decide (4 < w.length) && !(commonWords.contains w))
          (splitWs (lowerStr (joinSpace (t.map (·.text))))) := by
      apply List.filter_congr
      intro w hw
      have hcw : isCommonWord w = commonWords.contains w := by
        unfold isCommonWord
        rw [token_lowered _ w hw]
      rw [hcw]
      cases h1 : isAlphaStr w <;> cases h2 : commonWords.contains w <;>
        cases h3 : decide (4 < w.length) <;> rfl
    rw [hfilters]
  · simp only [extractKeyTermsFromTranscript]
    rw [List.length_map]
    exact List.length_take_le _ _
